import Mathlib

/-!
Verification development for the canonical/identity-saml-provider bridge
(a SAML IdP front that drives an OIDC authorization-code flow).

The definitions below are a shallow embedding of the Go sources
`internal/provider/server.go` and `internal/provider/database.go`:

* timestamps are modelled as `Int` nanoseconds (Go `time.Time` /
  `time.Now().UnixNano()`),
* the process-local `pendingRequests` Go map is modelled as an association
  list with Go-map read / write / delete semantics,
* the two SQL tables (`sessions`, `service_providers`) are modelled as
  lists of rows, with the `WHERE` clauses of the queries in
  `database.go` translated to list predicates,
* fallible external collaborators (OIDC token exchange, token
  verification, the SQL driver) are modelled by `Option` / `Bool`
  valued inputs to the handler functions, matching the error branches
  of the Go code.
-/

namespace SamlBridge

/-- Ten minutes in nanoseconds: Go `10 * time.Minute` added to a
`time.Time`, and the session lifetime used by the OIDC callback. -/
def tenMinutesNs : Int := 600000000000

/-- A stored pending AuthnRequest, from `pendingAuthnRequest` in
`server.go` (fields `samlRequest`, `relayState`). -/
structure PendingAuthnRequest where
  samlRequest : String
  relayState : String
deriving DecidableEq, Repr

/-- The process-local `pendingRequests` map of `Server`
(`map[string]pendingAuthnRequest`), modelled as an association list
whose `put` keeps keys unique, like a Go map. -/
abbrev PendingMap : Type := List (String × PendingAuthnRequest)

/-- Go map read `m[k]`: the value stored at `k`, if any. -/
def mapGet (m : PendingMap) (k : String) : Option PendingAuthnRequest :=
  match m.find? (fun p => p.1 = k) with
  | some p => some p.2
  | none => none

/-- Go map write `m[k] = v`: replaces the binding at `k` when present,
otherwise appends it. -/
def mapPut (m : PendingMap) (k : String) (v : PendingAuthnRequest) : PendingMap :=
  if m.any (fun p => p.1 = k) then
    m.map (fun p => if p.1 = k then (k, v) else p)
  else
    m ++ [(k, v)]

/-- Go `delete(m, k)`: removes the binding at `k`. -/
def mapDelete (m : PendingMap) (k : String) : PendingMap :=
  m.filter (fun p => ¬ p.1 = k)

/-- A SAML session, from `saml.Session` as populated by
`handleOIDCCallback` and stored by `Database.SaveSession`.  Times are
`Int` nanoseconds. -/
structure SAMLSession where
  id : String
  createTime : Int
  expireTime : Int
  index : String
  nameID : String
  userEmail : String
  userCommonName : String
  groups : List String
deriving DecidableEq, Repr

/-- A row of the `service_providers` table from `database.go`
(`entity_id` primary key, `acs_url`, `acs_binding`,
`created_at TIMESTAMPTZ NOT NULL DEFAULT NOW()`). -/
structure SPRow where
  entityID : String
  acsURL : String
  acsBinding : String
  createdAt : Int
deriving DecidableEq, Repr

/-- The fragment of `saml.EntityDescriptor` that
`Database.GetServiceProvider` fills in: the entity id and the single
`IndexedEndpoint` (binding, location, index 1). -/
structure EntityDescriptorM where
  entityID : String
  acsBinding : String
  acsLocation : String
  acsIndex : Nat
deriving DecidableEq, Repr

/-- Go `saml.HTTPPostBinding`. -/
def HTTPPostBinding : String := "urn:oasis:names:tc:SAML:2.0:bindings:HTTP-POST"

/-- Go `saml.HTTPRedirectBinding`. -/
def HTTPRedirectBinding : String := "urn:oasis:names:tc:SAML:2.0:bindings:HTTP-Redirect"

/-! ### Go `strings.SplitN(s, ":", 2)` and the state string -/

/-- Scans for the first colon; returns the characters before it and
after it, or `none` when there is no colon. -/
def splitFirstColonAux (acc : List Char) : List Char → Option (List Char × List Char)
  | [] => none
  | c :: cs => if c = ':' then some (acc.reverse, cs) else splitFirstColonAux (c :: acc) cs

/-- Go `strings.SplitN(s, ":", 2)`: `(s, none)` when `s` has no colon,
otherwise the part before the first colon and the (colon-preserving)
remainder after it. -/
def goSplitN2Colon (s : String) : String × Option String :=
  match splitFirstColonAux [] s.data with
  | none => (s, none)
  | some (a, b) => (String.mk a, some (String.mk b))

/-- Lines 256-266 of `server.go`: `requestID` and `relayState` start
empty; when `state` is non-empty it is split on the first colon,
`requestID` becomes the first part and `relayState` the second part
when there is one. -/
def parseState (state : String) : String × String :=
  if state = "" then ("", "")
  else
    match goSplitN2Colon state with
    | (a, none) => (a, "")
    | (a, some b) => (a, b)

/-- Lines 164-168 of `server.go`: `state := req.Request.ID`, and when
the relay state is non-empty, `state += ":" + req.RelayState`. -/
def buildState (id relay : String) : String :=
  if relay = "" then id else id ++ ":" ++ relay

/-! ### Model of the Go net/url library (scheme and host extraction)

The registration handler only reads `Scheme` and `Host` from the result
of `url.Parse`, so the model covers exactly that fragment of the
library.  It mirrors `getScheme` from net/url (a scheme is a letter
followed by letters, digits, `+`, `-`, `.`, terminated by a colon; a
leading colon is a parse error; any other character before a colon
means there is no scheme) and the authority rule (a host is present
only when the remainder starts with `//`, and extends to the first
`/`, `?` or `#`).  Userinfo and port are left inside `host`, as in
Go's `URL.Host`; only non-emptiness of the host matters to the
handler. -/

/-- The `Scheme` and `Host` fields of a parsed Go `url.URL`. -/
structure GoURL where
  scheme : String
  host : String
deriving DecidableEq, Repr

/-- Result of the scheme scan of net/url `getScheme`. -/
inductive SchemeScan where
  | parseErr : SchemeScan
  | noScheme : SchemeScan
  | found : List Char → List Char → SchemeScan
deriving DecidableEq, Repr

/-- Characters allowed after the first character of a scheme. -/
def isSchemeTail (c : Char) : Bool :=
  c.isAlpha || c.isDigit || c = '+' || c = '-' || c = '.'

/-- Scan of net/url `getScheme`: accumulates scheme characters until a
colon; a colon with no scheme characters before it is a parse error;
a character that cannot appear in a scheme means the URL has no
scheme. -/
def getSchemeAux (acc : List Char) : List Char → SchemeScan
  | [] => SchemeScan.noScheme
  | c :: cs =>
    if c = ':' then
      (if acc.isEmpty then SchemeScan.parseErr else SchemeScan.found acc.reverse cs)
    else if c.isAlpha then getSchemeAux (c :: acc) cs
    else if (c.isDigit || c = '+' || c = '-' || c = '.') then
      (if acc.isEmpty then SchemeScan.noScheme else getSchemeAux (c :: acc) cs)
    else SchemeScan.noScheme

/-- Host extraction: when the post-scheme remainder starts with `//`,
the host runs to the first `/`, `?` or `#`; otherwise there is no
host. -/
def hostOfRest (rest : List Char) : String :=
  match rest with
  | '/' :: '/' :: auth => String.mk (auth.takeWhile (fun c => c ≠ '/' && c ≠ '?' && c ≠ '#'))
  | _ => ""

/-- Model of Go `url.Parse` restricted to the `Scheme` and `Host`
fields; `none` models a non-nil parse error.  Go lowercases the
scheme. -/
def urlParse (s : String) : Option GoURL :=
  match getSchemeAux [] s.data with
  | SchemeScan.parseErr => none
  | SchemeScan.noScheme => some { scheme := "", host := hostOfRest s.data }
  | SchemeScan.found sch rest =>
      some { scheme := String.mk (sch.map Char.toLower), host := hostOfRest rest }

/-! ### The sessions table (`database.go`) -/

/-- Query of `Database.GetSession`: SELECT of the row with the given
id whose `expire_time > NOW()`; `none` models both `sql.ErrNoRows`
and the expired case filtered out by the WHERE clause.  The table is
a list of rows; under the primary-key invariant at most one row
matches. -/
def getSessionDB (tbl : List SAMLSession) (now : Int) (id : String) : Option SAMLSession :=
  tbl.find? (fun s => s.id = id && now < s.expireTime)

/-- Statement of `Database.SaveSession`: INSERT .. ON CONFLICT (id) DO
UPDATE of every non-key field. -/
def saveSessionDB (tbl : List SAMLSession) (s : SAMLSession) : List SAMLSession :=
  if tbl.any (fun r => r.id = s.id) then
    tbl.map (fun r => if r.id = s.id then s else r)
  else
    tbl ++ [s]

/-! ### The service_providers table (`database.go`) -/

/-- Statement of `Database.SaveServiceProvider`: INSERT .. ON CONFLICT
(entity_id) DO UPDATE SET acs_url, acs_binding (the `created_at`
column is not in the update list; on insert it defaults to NOW(),
passed here as `now`). -/
def saveServiceProvider (now : Int) (tbl : List SPRow) (e u b : String) : List SPRow :=
  if tbl.any (fun r => r.entityID = e) then
    tbl.map (fun r => if r.entityID = e then { r with acsURL := u, acsBinding := b } else r)
  else
    tbl ++ [{ entityID := e, acsURL := u, acsBinding := b, createdAt := now }]

/-- Query of `Database.GetServiceProvider`: SELECT by entity id, then
construction of the `saml.EntityDescriptor` with one
`IndexedEndpoint` carrying the stored binding and location at index
1; `none` models the error return (`sql.ErrNoRows` included). -/
def getServiceProvider (tbl : List SPRow) (e : String) : Option EntityDescriptorM :=
  match tbl.find? (fun r => r.entityID = e) with
  | some r => some { entityID := r.entityID, acsBinding := r.acsBinding,
                     acsLocation := r.acsURL, acsIndex := 1 }
  | none => none

/-! ### The OIDC callback handler (`handleOIDCCallback`, server.go 181-294) -/

/-- Go `http.SameSite`; the handler only ever uses `Lax`. -/
inductive SameSite where
  | lax : SameSite
  | strict : SameSite
deriving DecidableEq, Repr

/-- The fields of the Go `http.Cookie` set by the callback. -/
structure HTTPCookie where
  name : String
  value : String
  path : String
  maxAge : Int
  httpOnly : Bool
  sameSite : SameSite
deriving DecidableEq, Repr

/-- The claims the ID token carries.  The Go handler unmarshals only
`email` and `sub` into its claims struct; `name` stands for a display
name the OP may also supply, which the handler never decodes. -/
structure OIDCClaims where
  email : String
  sub : String
  name : String
deriving DecidableEq, Repr

/-- The oauth2 token returned by a successful exchange; the handler
reads only its optional `id_token` extra string. -/
structure GoToken where
  idTokenExtra : Option String
deriving DecidableEq, Repr

/-- Inputs of one execution of `handleOIDCCallback` coming from the
request and from the external collaborators: the `code` and `state`
query parameters, the token-exchange result (`none` = error), the
verifier outcome, the claims-unmarshal result (`none` = error), the
`SaveSession` outcome, and the three successive `time.Now()` readings
taken while building the session (id, CreateTime, ExpireTime). -/
structure CallbackEnv where
  code : String
  exchangeResult : Option GoToken
  verifyOK : Bool
  claimsResult : Option OIDCClaims
  saveOK : Bool
  state : String
  now1 : Int
  now2 : Int
  now3 : Int
deriving DecidableEq, Repr

/-- The replay redirect target built at server.go 272-289: the
`/saml/sso` base with optional `SAMLRequest` and `RelayState` query
parameters (a parameter is `none` exactly when the code does not set
it). -/
structure ReplayURL where
  samlRequest : Option String
  relayState : Option String
deriving DecidableEq, Repr

/-- Observable outcome of one execution of `handleOIDCCallback`: the
HTTP status written, the cookie set (if any), the session passed to
`SaveSession` (if execution reached it), the pending map after the
handler, and the replay redirect (present only on the 302 path). -/
structure CallbackResult where
  status : Nat
  cookie : Option HTTPCookie
  saveAttempt : Option SAMLSession
  pendingAfter : PendingMap
  redirect : Option ReplayURL
deriving DecidableEq, Repr

/-- Lines 272-289 of `server.go`: when a request id was carried in
`state` and the pending map holds it, the entry is deleted and its
`SAMLRequest` (plus its relay state when non-empty) is replayed;
otherwise only the relay state from `state` (when non-empty) is
forwarded. -/
def callbackReplay (pending : PendingMap) (requestID relayState : String) :
    PendingMap × ReplayURL :=
  if requestID ≠ "" then
    match mapGet pending requestID with
    | some p =>
        (mapDelete pending requestID,
         { samlRequest := some p.samlRequest,
           relayState := if p.relayState ≠ "" then some p.relayState else none })
    | none =>
        (pending,
         { samlRequest := none,
           relayState := if relayState ≠ "" then some relayState else none })
  else
    (pending,
     { samlRequest := none,
       relayState := if relayState ≠ "" then some relayState else none })

/-- Shallow embedding of `handleOIDCCallback` (server.go 181-294),
branch for branch: missing `code` gives 400; exchange, missing
`id_token`, verification and claims failures give 500; an empty email
gives 403; the session is built from the three clock readings and
passed to `SaveSession`, whose failure gives 500 before any cookie is
set or the pending map is touched; on success the cookie is set, the
state is split, the pending entry (if any) is consumed and the
browser is redirected (302). -/
def handleOIDCCallback (env : CallbackEnv) (pending : PendingMap) : CallbackResult :=
  if env.code = "" then
    { status := 400, cookie := none, saveAttempt := none,
      pendingAfter := pending, redirect := none }
  else
    match env.exchangeResult with
    | none =>
        { status := 500, cookie := none, saveAttempt := none,
          pendingAfter := pending, redirect := none }
    | some token =>
        match token.idTokenExtra with
        | none =>
            { status := 500, cookie := none, saveAttempt := none,
              pendingAfter := pending, redirect := none }
        | some _raw =>
            if !env.verifyOK then
              { status := 500, cookie := none, saveAttempt := none,
                pendingAfter := pending, redirect := none }
            else
              match env.claimsResult with
              | none =>
                  { status := 500, cookie := none, saveAttempt := none,
                    pendingAfter := pending, redirect := none }
              | some claims =>
                  if claims.email = "" then
                    { status := 403, cookie := none, saveAttempt := none,
                      pendingAfter := pending, redirect := none }
                  else
                    let sessionID := "_" ++ toString env.now1
                    let samlSession : SAMLSession :=
                      { id := sessionID, createTime := env.now2,
                        expireTime := env.now3 + tenMinutesNs,
                        index := sessionID, nameID := claims.email,
                        userEmail := claims.email, userCommonName := claims.email,
                        groups := [] }
                    if !env.saveOK then
                      { status := 500, cookie := none, saveAttempt := some samlSession,
                        pendingAfter := pending, redirect := none }
                    else
                      let cookie : HTTPCookie :=
                        { name := "saml_session", value := sessionID, path := "/",
                          maxAge := 600, httpOnly := true, sameSite := SameSite.lax }
                      let parsed := parseState env.state
                      let replay := callbackReplay pending parsed.1 parsed.2
                      { status := 302, cookie := some cookie,
                        saveAttempt := some samlSession,
                        pendingAfter := replay.1, redirect := some replay.2 }

/-! ### The SSO session provider (`sessionProviderAdapter.GetSession`,
server.go 133-176) -/

/-- Inputs of one execution of the SSO session provider: the
`saml_session` cookie (when present), the session-store lookup result
for that cookie, the `SAMLRequest` parameter as seen in the query and
in the POST form, whether `ParseForm` succeeded, and the decoded
AuthnRequest id and relay state. -/
structure SSOEnv where
  cookieValue : Option String
  storedSession : Option SAMLSession
  querySAMLRequest : String
  formSAMLRequest : String
  formParseOK : Bool
  reqID : String
  relayState : String
deriving DecidableEq, Repr

/-- Observable outcome of the SSO session provider: the session (when
one is returned to the SAML engine), the pending map after the call,
and the `state` passed to `AuthCodeURL` when redirecting to the OP. -/
structure SSOResult where
  session : Option SAMLSession
  pendingAfter : PendingMap
  redirectState : Option String
deriving DecidableEq, Repr

/-- Shallow embedding of `sessionProviderAdapter.GetSession`
(server.go 133-176): the store is consulted only when a non-empty
cookie is present; with no valid session, the raw `SAMLRequest`
(query first, then the form) is stored in the pending map under the
AuthnRequest id together with the relay state, the state string is
built, and the browser is redirected to the OP. -/
def ssoGetSession (env : SSOEnv) (pending : PendingMap) : SSOResult :=
  let session : Option SAMLSession :=
    match env.cookieValue with
    | some v => if v ≠ "" then env.storedSession else none
    | none => none
  match session with
  | some s => { session := some s, pendingAfter := pending, redirectState := none }
  | none =>
      let samlRequest :=
        if env.querySAMLRequest ≠ "" then env.querySAMLRequest
        else if env.formParseOK then env.formSAMLRequest
        else ""
      let pendingAfter :=
        if samlRequest ≠ "" then
          mapPut pending env.reqID
            { samlRequest := samlRequest, relayState := env.relayState }
        else pending
      { session := none, pendingAfter := pendingAfter,
        redirectState := some (buildState env.reqID env.relayState) }

/-! ### The SP registration handler
(`handleServiceProviderRegistration`, server.go 316-408) -/

/-- The decoded registration request body (JSON or form fields
`entity_id`, `acs_url`, `acs_binding`). -/
structure RegRequest where
  entityID : String
  acsURL : String
  acsBinding : String
deriving DecidableEq, Repr

/-- Observable outcome of the registration handler: the HTTP status
written and the service_providers table after the call. -/
structure RegResult where
  status : Nat
  table : List SPRow
deriving DecidableEq, Repr

/-- The check applied to both `acs_url` and `entity_id` at server.go
356-376: `url.Parse` must succeed with non-empty scheme and host, and
the scheme must be http or https. -/
def checkBridgeURL (s : String) : Bool :=
  match urlParse s with
  | none => false
  | some u =>
      if u.scheme = "" || u.host = "" then false
      else if u.scheme ≠ "http" && u.scheme ≠ "https" then false
      else true

/-- Shallow embedding of `handleServiceProviderRegistration`
(server.go 316-408) from the decoded request on: non-POST gives 405;
empty `entity_id` or `acs_url` gives 400; each of `acs_url` then
`entity_id` must pass the URL check or give 400; an empty
`acs_binding` defaults to HTTP-POST and any other value outside the
two permitted bindings gives 400; then the row is upserted, a storage
error giving 500 and success 201. -/
def handleServiceProviderRegistration (method : String) (req : RegRequest)
    (saveOK : Bool) (now : Int) (tbl : List SPRow) : RegResult :=
  if method ≠ "POST" then { status := 405, table := tbl }
  else if req.entityID = "" || req.acsURL = "" then { status := 400, table := tbl }
  else if !checkBridgeURL req.acsURL then { status := 400, table := tbl }
  else if !checkBridgeURL req.entityID then { status := 400, table := tbl }
  else
    let binding := if req.acsBinding = "" then HTTPPostBinding else req.acsBinding
    if req.acsBinding ≠ "" && req.acsBinding ≠ HTTPPostBinding &&
        req.acsBinding ≠ HTTPRedirectBinding then
      { status := 400, table := tbl }
    else if !saveOK then { status := 500, table := tbl }
    else { status := 201, table := saveServiceProvider now tbl req.entityID req.acsURL binding }

/-! ### Interleaving model of the pending-map take

The take in `handleOIDCCallback` (server.go 276-277) is the two-step
sequence: read `pending, ok := s.pendingRequests[requestID]` followed,
when `ok`, by `delete(s.pendingRequests, requestID)`.  The map is a
plain Go map with no mutex, so when two request handlers race on the
same key the two micro-operations of each handler interleave freely.
The model below runs two callers of that two-step sequence under an
explicit schedule, each map operation being one atomic step. -/

/-- One caller of the read-then-delete sequence: program counter 0 =
about to read, 1 = read found a value and the delete is pending, 2 =
finished; `result` is the value the caller received. -/
structure TakeCaller where
  pc : Nat
  result : Option PendingAuthnRequest
deriving DecidableEq, Repr

/-- A caller that has not run yet. -/
def TakeCaller.init : TakeCaller := { pc := 0, result := none }

/-- Shared state of the two racing callers. -/
structure RaceState where
  m : PendingMap
  a : TakeCaller
  b : TakeCaller
deriving DecidableEq, Repr

/-- One micro-step of a caller on the shared map: at pc 0 it performs
the map read (recording the result, and skipping the delete when the
key is absent); at pc 1 it performs the delete. -/
def takeCallerStep (key : String) (m : PendingMap) (c : TakeCaller) :
    PendingMap × TakeCaller :=
  match c.pc with
  | 0 =>
      match mapGet m key with
      | some v => (m, { pc := 1, result := some v })
      | none => (m, { pc := 2, result := none })
  | 1 => (mapDelete m key, { c with pc := 2 })
  | _ => (m, c)

/-- One scheduled step: `true` runs caller `a`, `false` runs caller
`b`. -/
def raceStep (key : String) (s : RaceState) (who : Bool) : RaceState :=
  if who then
    let r := takeCallerStep key s.m s.a
    { s with m := r.1, a := r.2 }
  else
    let r := takeCallerStep key s.m s.b
    { s with m := r.1, b := r.2 }

/-- Runs two racing takes of `key` under the given schedule. -/
def runRace (key : String) (sched : List Bool) (s : RaceState) : RaceState :=
  sched.foldl (raceStep key) s

/-! ### The pending map across the life of the process

The only code that touches `Server.pendingRequests` is the SSO session
provider (which stores entries) and the OIDC callback (which deletes
the entry it replays).  The events below are those two handlers; a
trace is a sequence of handler executions. -/

/-- A handler execution that can touch the pending map. -/
inductive ServerEvent where
  | sso : SSOEnv → ServerEvent
  | callback : CallbackEnv → ServerEvent

/-- The pending map after one handler execution. -/
def pendingStep (pending : PendingMap) (ev : ServerEvent) : PendingMap :=
  match ev with
  | ServerEvent.sso env => (ssoGetSession env pending).pendingAfter
  | ServerEvent.callback env => (handleOIDCCallback env pending).pendingAfter

/-- The pending map after a trace of handler executions. -/
def pendingRun (pending : PendingMap) (evs : List ServerEvent) : PendingMap :=
  evs.foldl pendingStep pending

/-- The display-name claim of the token replaced by `n`, everything
else unchanged; used to state that the handler never reads the
OP-supplied display name. -/
def withDisplayName (env : CallbackEnv) (n : String) : CallbackEnv :=
  { env with claimsResult := env.claimsResult.map (fun c => { c with name := n }) }

/-! ### Helper lemmas about the Go-map model -/

theorem find?_replace_of_mem (m : PendingMap) (k : String) (v : PendingAuthnRequest)
    (h : m.any (fun p => p.1 = k) = true) :
    (m.map (fun p => if p.1 = k then (k, v) else p)).find? (fun p => p.1 = k) = some (k, v) := by
  induction m with
  | nil => simp at h
  | cons p rest ih =>
      by_cases hp : p.1 = k
      · simp [hp, List.find?_cons_of_pos]
      · simp only [List.any_cons, Bool.or_eq_true, decide_eq_true_eq] at h
        rcases h with h | h
        · exact absurd h hp
        · simpa [hp, List.find?_cons_of_neg] using ih h

theorem find?_replace_of_ne (m : PendingMap) (k k' : String) (v : PendingAuthnRequest)
    (hne : k' ≠ k) :
    (m.map (fun p => if p.1 = k then (k, v) else p)).find? (fun p => p.1 = k') =
      m.find? (fun p => p.1 = k') := by
  induction m with
  | nil => rfl
  | cons p rest ih =>
      rw [List.map_cons]
      by_cases hp : p.1 = k
      · rw [if_pos hp]
        rw [List.find?_cons_of_neg _ (by simpa using hne.symm)]
        rw [List.find?_cons_of_neg _ (by simp only [hp, decide_eq_true_eq]; exact hne.symm)]
        exact ih
      · rw [if_neg hp]
        by_cases hq : p.1 = k'
        · rw [List.find?_cons_of_pos _ (by simpa using hq),
            List.find?_cons_of_pos _ (by simpa using hq)]
        · rw [List.find?_cons_of_neg _ (by simpa using hq),
            List.find?_cons_of_neg _ (by simpa using hq)]
          exact ih

theorem find?_none_of_any_false (m : PendingMap) (k : String)
    (h : m.any (fun p => p.1 = k) = false) :
    m.find? (fun p => p.1 = k) = none := by
  rw [List.find?_eq_none]
  intro p hp
  simp only [List.any_eq_false, decide_eq_true_eq] at h
  simpa using h p hp

theorem mapGet_mapPut (m : PendingMap) (k k' : String) (v : PendingAuthnRequest) :
    mapGet (mapPut m k v) k' = if k' = k then some v else mapGet m k' := by
  unfold mapPut
  by_cases hmem : m.any (fun p => p.1 = k) = true
  · rw [if_pos hmem]
    by_cases hk : k' = k
    · subst hk
      rw [if_pos rfl]
      unfold mapGet
      rw [find?_replace_of_mem m k' v hmem]
    · rw [if_neg hk]
      unfold mapGet
      rw [find?_replace_of_ne m k k' v hk]
  · rw [if_neg hmem]
    rw [Bool.not_eq_true] at hmem
    by_cases hk : k' = k
    · subst hk
      rw [if_pos rfl]
      unfold mapGet
      rw [List.find?_append, find?_none_of_any_false m k' hmem, Option.none_or,
        List.find?_cons_of_pos _ (by simp)]
    · rw [if_neg hk]
      unfold mapGet
      have hsingle : List.find? (fun p => p.1 = k') [(k, v)] = none := by
        rw [List.find?_cons_of_neg _ (by simpa using Ne.symm hk)]
        rfl
      rw [List.find?_append, hsingle, Option.or_none]

theorem find?_filter_ne (m : PendingMap) (k k' : String) (hne : k' ≠ k) :
    (m.filter (fun p => ¬ p.1 = k)).find? (fun p => p.1 = k') =
      m.find? (fun p => p.1 = k') := by
  induction m with
  | nil => rfl
  | cons p rest ih =>
      by_cases hp : p.1 = k
      · rw [List.filter_cons_of_neg (by simpa using hp)]
        rw [List.find?_cons_of_neg _ (by simp only [hp, decide_eq_true_eq]; exact hne.symm)]
        exact ih
      · rw [List.filter_cons_of_pos (by simpa using hp)]
        by_cases hq : p.1 = k'
        · rw [List.find?_cons_of_pos _ (by simpa using hq),
            List.find?_cons_of_pos _ (by simpa using hq)]
        · rw [List.find?_cons_of_neg _ (by simpa using hq),
            List.find?_cons_of_neg _ (by simpa using hq)]
          exact ih

theorem find?_filter_self (m : PendingMap) (k : String) :
    (m.filter (fun p => ¬ p.1 = k)).find? (fun p => p.1 = k) = none := by
  rw [List.find?_eq_none]
  intro p hp
  have h2 := List.of_mem_filter hp
  simp only [decide_not, Bool.not_eq_true', decide_eq_false_iff_not] at h2
  simpa using h2

theorem mapGet_mapDelete (m : PendingMap) (k k' : String) :
    mapGet (mapDelete m k) k' = if k' = k then none else mapGet m k' := by
  by_cases hk : k' = k
  · subst hk
    rw [if_pos rfl]
    unfold mapGet mapDelete
    rw [find?_filter_self m k']
  · rw [if_neg hk]
    unfold mapGet mapDelete
    rw [find?_filter_ne m k k' hk]

/-! ### Helper lemmas about the colon split -/

theorem splitFirstColonAux_of_no_colon (acc : List Char) (xs : List Char)
    (h : ':' ∉ xs) : splitFirstColonAux acc xs = none := by
  induction xs generalizing acc with
  | nil => rfl
  | cons c cs ih =>
      have hc : ¬ (c = ':') := fun e => h (e ▸ List.mem_cons_self c cs)
      simp only [splitFirstColonAux, if_neg hc]
      exact ih _ (fun hm => h (List.mem_cons_of_mem _ hm))

theorem splitFirstColonAux_append (acc xs ys : List Char) (h : ':' ∉ xs) :
    splitFirstColonAux acc (xs ++ ':' :: ys) = some (acc.reverse ++ xs, ys) := by
  induction xs generalizing acc with
  | nil => simp [splitFirstColonAux]
  | cons c cs ih =>
      have hc : ¬ (c = ':') := fun e => h (e ▸ List.mem_cons_self c cs)
      simp only [List.cons_append, splitFirstColonAux, if_neg hc, List.append_eq]
      rw [ih (c :: acc) (fun hm => h (List.mem_cons_of_mem _ hm))]
      simp

theorem goSplitN2Colon_of_no_colon (s : String) (h : ':' ∉ s.data) :
    goSplitN2Colon s = (s, none) := by
  unfold goSplitN2Colon
  rw [splitFirstColonAux_of_no_colon [] s.data h]

theorem goSplitN2Colon_buildState (id relay : String) (h : ':' ∉ id.data)
    (hr : relay ≠ "") : goSplitN2Colon (buildState id relay) = (id, some relay) := by
  unfold buildState
  rw [if_neg hr]
  have hdata : (id ++ ":" ++ relay).data = id.data ++ ':' :: relay.data := by
    simp [String.data_append]
  unfold goSplitN2Colon
  rw [hdata, splitFirstColonAux_append [] id.data relay.data h]
  simp

/-! ### Structural lemmas about the handlers -/

theorem handleOIDCCallback_pendingAfter_cases (env : CallbackEnv) (pending : PendingMap) :
    (handleOIDCCallback env pending).pendingAfter = pending ∨
    (env.saveOK = true ∧ (handleOIDCCallback env pending).status = 302 ∧
     (handleOIDCCallback env pending).pendingAfter =
       (callbackReplay pending (parseState env.state).1 (parseState env.state).2).1) := by
  simp only [handleOIDCCallback]
  repeat' split
  all_goals
    first
      | exact Or.inl rfl
      | (right
         refine ⟨?_, rfl, rfl⟩
         rename_i h
         simpa using h)

theorem callbackReplay_fst_cases (pending : PendingMap) (rid rs : String) :
    (callbackReplay pending rid rs).1 = pending ∨
    (callbackReplay pending rid rs).1 = mapDelete pending rid := by
  simp only [callbackReplay]
  repeat' split
  all_goals first | exact Or.inl rfl | exact Or.inr rfl

theorem ssoGetSession_pendingAfter_cases (env : SSOEnv) (pending : PendingMap) :
    (ssoGetSession env pending).pendingAfter = pending ∨
    ∃ v, (ssoGetSession env pending).pendingAfter = mapPut pending env.reqID v := by
  simp only [ssoGetSession]
  repeat' split
  all_goals first | exact Or.inl rfl | exact Or.inr ⟨_, rfl⟩

theorem pendingStep_remove (pending : PendingMap) (k : String) (ev : ServerEvent)
    (hpre : mapGet pending k ≠ none) (hpost : mapGet (pendingStep pending ev) k = none) :
    ∃ cenv, ev = ServerEvent.callback cenv ∧ (parseState cenv.state).1 = k ∧
      cenv.saveOK = true ∧ (handleOIDCCallback cenv pending).status = 302 := by
  cases ev with
  | sso env =>
      exfalso
      rcases ssoGetSession_pendingAfter_cases env pending with h | ⟨v, h⟩
      · rw [pendingStep, h] at hpost
        exact hpre hpost
      · rw [pendingStep, h, mapGet_mapPut] at hpost
        by_cases hk : k = env.reqID
        · rw [if_pos hk] at hpost
          exact Option.noConfusion hpost
        · rw [if_neg hk] at hpost
          exact hpre hpost
  | callback cenv =>
      rcases handleOIDCCallback_pendingAfter_cases cenv pending with h | ⟨hsave, hstat, hpa⟩
      · exfalso
        rw [pendingStep, h] at hpost
        exact hpre hpost
      · rcases callbackReplay_fst_cases pending (parseState cenv.state).1
          (parseState cenv.state).2 with hc | hc
        · exfalso
          rw [pendingStep, hpa, hc] at hpost
          exact hpre hpost
        · refine ⟨cenv, rfl, ?_, hsave, hstat⟩
          by_contra hne
          rw [pendingStep, hpa, hc, mapGet_mapDelete,
            if_neg (fun hkk => hne hkk.symm)] at hpost
          exact hpre hpost

/-! ### Helper lemmas about the service-provider registry -/

theorem saveServiceProvider_find (now : Int) (tbl : List SPRow) (e u b : String) :
    ∃ c, (saveServiceProvider now tbl e u b).find? (fun r => r.entityID = e) =
      some { entityID := e, acsURL := u, acsBinding := b, createdAt := c } := by
  induction tbl with
  | nil =>
      refine ⟨now, ?_⟩
      simp [saveServiceProvider]
  | cons r rs ih =>
      by_cases hr : r.entityID = e
      · refine ⟨r.createdAt, ?_⟩
        unfold saveServiceProvider
        rw [if_pos (by simp [List.any_cons, hr])]
        rw [List.map_cons, if_pos hr]
        rw [List.find?_cons_of_pos _ (by simpa using hr)]
        simp [hr]
      · unfold saveServiceProvider
        by_cases hany : rs.any (fun x => x.entityID = e) = true
        · rw [if_pos (by simp [List.any_cons, hany])]
          rw [List.map_cons, if_neg hr]
          rw [List.find?_cons_of_neg _ (by simpa using hr)]
          obtain ⟨c, hc⟩ := ih
          rw [saveServiceProvider, if_pos hany] at hc
          exact ⟨c, hc⟩
        · rw [if_neg (by simp [List.any_cons, hany, hr])]
          rw [List.cons_append]
          rw [List.find?_cons_of_neg _ (by simpa using hr)]
          obtain ⟨c, hc⟩ := ih
          rw [saveServiceProvider, if_neg (by simpa using hany)] at hc
          exact ⟨c, hc⟩

theorem getServiceProvider_saveServiceProvider (now : Int) (tbl : List SPRow)
    (e u b : String) :
    getServiceProvider (saveServiceProvider now tbl e u b) e =
      some { entityID := e, acsBinding := b, acsLocation := u, acsIndex := 1 } := by
  obtain ⟨c, hc⟩ := saveServiceProvider_find now tbl e u b
  unfold getServiceProvider
  rw [hc]

/-! ### Claim theorems -/

/-- C1: the pending-table take is NOT atomic.  The code reads
`s.pendingRequests[requestID]` and then deletes the key as two separate
operations on an unsynchronized Go map, so under the interleaving in
which both handlers read before either deletes, both callers of take
on the same key receive the stored value — the claim that exactly one
caller receives it and every other caller receives None fails. -/
theorem pendingTake_race_both_receive :
    (runRace "id1" [true, false, true, false]
        { m := [("id1", { samlRequest := "cmVx", relayState := "rs" })],
          a := TakeCaller.init, b := TakeCaller.init }).a.result =
      some { samlRequest := "cmVx", relayState := "rs" } ∧
    (runRace "id1" [true, false, true, false]
        { m := [("id1", { samlRequest := "cmVx", relayState := "rs" })],
          a := TakeCaller.init, b := TakeCaller.init }).b.result =
      some { samlRequest := "cmVx", relayState := "rs" } := by
  exact ⟨rfl, rfl⟩

theorem getSessionDB_eq_some_iff (now : Int) (id : String) (s : SAMLSession) :
    ∀ tbl : List SAMLSession, tbl.Pairwise (fun a b => a.id ≠ b.id) →
      (getSessionDB tbl now id = some s ↔ (s ∈ tbl ∧ s.id = id ∧ now < s.expireTime)) := by
  intro tbl
  induction tbl with
  | nil => intro _; simp [getSessionDB]
  | cons r rs ih =>
      intro huniq
      obtain ⟨hr, hrs⟩ := List.pairwise_cons.mp huniq
      unfold getSessionDB
      by_cases hmatch : r.id = id ∧ now < r.expireTime
      · rw [List.find?_cons_of_pos _ (by simp [hmatch.1, hmatch.2])]
        constructor
        · intro h
          have hsr : r = s := Option.some.inj h
          subst hsr
          exact ⟨List.mem_cons_self r rs, hmatch.1, hmatch.2⟩
        · rintro ⟨hmem, hid, _⟩
          rcases List.mem_cons.mp hmem with rfl | hmem2
          · rfl
          · exact absurd (hmatch.1.trans hid.symm) (hr s hmem2)
      · rw [List.find?_cons_of_neg _
          (by simp only [Bool.and_eq_true, decide_eq_true_eq]; exact hmatch)]
        rw [show (List.find? (fun s => s.id = id && decide (now < s.expireTime)) rs) =
          getSessionDB rs now id from rfl]
        rw [ih hrs]
        constructor
        · rintro ⟨hmem, hid, hexp⟩
          exact ⟨List.mem_cons_of_mem _ hmem, hid, hexp⟩
        · rintro ⟨hmem, hid, hexp⟩
          rcases List.mem_cons.mp hmem with rfl | hmem2
          · exact absurd ⟨hid, hexp⟩ hmatch
          · exact ⟨hmem2, hid, hexp⟩

/-- C2: the session-store get returns None exactly when no row with
the id exists or the row's expire_time is at or before the store's
clock reading, and returns the stored session exactly when the row
exists and expire_time is strictly later than now (the WHERE clause
id = $1 AND expire_time > NOW() of GetSession). -/
theorem getSession_expiry_gate (tbl : List SAMLSession) (now : Int) (id : String)
    (huniq : tbl.Pairwise (fun a b => a.id ≠ b.id)) :
    (∀ s, getSessionDB tbl now id = some s ↔ (s ∈ tbl ∧ s.id = id ∧ now < s.expireTime)) ∧
    (getSessionDB tbl now id = none ↔ ∀ s ∈ tbl, s.id = id → s.expireTime ≤ now) := by
  have h1 : ∀ s, getSessionDB tbl now id = some s ↔
      (s ∈ tbl ∧ s.id = id ∧ now < s.expireTime) :=
    fun s => getSessionDB_eq_some_iff now id s tbl huniq
  refine ⟨h1, ?_, ?_⟩
  · intro hnone s hmem hid
    by_contra hq
    have hlt : now < s.expireTime := not_le.mp hq
    have := (h1 s).mpr ⟨hmem, hid, hlt⟩
    rw [hnone] at this
    exact Option.noConfusion this
  · intro hall
    cases hfind : getSessionDB tbl now id with
    | none => rfl
    | some s =>
        have hs := (h1 s).mp hfind
        exact absurd hs.2.2 (not_lt.mpr (hall s hs.1 hs.2.1))

/-- Witness for C2 at a one-row table holding an expired session and a
live lookup time. -/
theorem getSession_expiry_gate_witness :
    getSessionDB
        [{ id := "_1", createTime := 0, expireTime := 100, index := "_1",
           nameID := "a@b.example", userEmail := "a@b.example",
           userCommonName := "a@b.example", groups := [] }] 50 "_1" =
      some { id := "_1", createTime := 0, expireTime := 100, index := "_1",
             nameID := "a@b.example", userEmail := "a@b.example",
             userCommonName := "a@b.example", groups := [] } := by
  have h := getSession_expiry_gate
    [{ id := "_1", createTime := 0, expireTime := 100, index := "_1",
       nameID := "a@b.example", userEmail := "a@b.example",
       userCommonName := "a@b.example", groups := [] }] 50 "_1"
    (List.pairwise_singleton _ _)
  exact (h.1 _).mpr ⟨List.mem_singleton_self _, rfl, by decide⟩

/-- C3: when the session save fails, the OIDC callback responds 500,
sets no cookie and leaves the pending table unchanged; and the pending
table is mutated only on the fully successful (302) path, which is
reached only with a successful save. -/
theorem callback_save_failure_gate :
    (∀ env pending tok raw cl, env.code ≠ "" → env.exchangeResult = some tok →
      tok.idTokenExtra = some raw → env.verifyOK = true → env.claimsResult = some cl →
      cl.email ≠ "" → env.saveOK = false →
      ((handleOIDCCallback env pending).status = 500 ∧
       (handleOIDCCallback env pending).cookie = none ∧
       (handleOIDCCallback env pending).pendingAfter = pending)) ∧
    (∀ env pending, (handleOIDCCallback env pending).pendingAfter ≠ pending →
      (env.saveOK = true ∧ (handleOIDCCallback env pending).status = 302)) := by
  constructor
  · intro env pending tok raw cl h1 h2 h3 h4 h5 h6 h7
    simp [handleOIDCCallback, h1, h2, h3, h4, h5, h6, h7]
  · intro env pending hne
    rcases handleOIDCCallback_pendingAfter_cases env pending with h | ⟨hsave, hstat, _⟩
    · exact absurd h hne
    · exact ⟨hsave, hstat⟩

/-- Witness for C3: a save failure at a concrete callback input leaves
the one-entry pending table untouched, answers 500 and sets no
cookie. -/
theorem callback_save_failure_gate_witness :
    (handleOIDCCallback
        { code := "abc", exchangeResult := some { idTokenExtra := some "raw" },
          verifyOK := true,
          claimsResult := some { email := "alice@example.com", sub := "s1", name := "" },
          saveOK := false, state := "_id1", now1 := 0, now2 := 0, now3 := 0 }
        [("_id1", { samlRequest := "cmVx", relayState := "" })]).status = 500 ∧
    (handleOIDCCallback
        { code := "abc", exchangeResult := some { idTokenExtra := some "raw" },
          verifyOK := true,
          claimsResult := some { email := "alice@example.com", sub := "s1", name := "" },
          saveOK := false, state := "_id1", now1 := 0, now2 := 0, now3 := 0 }
        [("_id1", { samlRequest := "cmVx", relayState := "" })]).cookie = none ∧
    (handleOIDCCallback
        { code := "abc", exchangeResult := some { idTokenExtra := some "raw" },
          verifyOK := true,
          claimsResult := some { email := "alice@example.com", sub := "s1", name := "" },
          saveOK := false, state := "_id1", now1 := 0, now2 := 0, now3 := 0 }
        [("_id1", { samlRequest := "cmVx", relayState := "" })]).pendingAfter =
      [("_id1", { samlRequest := "cmVx", relayState := "" })] :=
  callback_save_failure_gate.1 _ _ { idTokenExtra := some "raw" } "raw"
    { email := "alice@example.com", sub := "s1", name := "" }
    (by decide) rfl rfl rfl rfl (by decide) rfl

/-- C4: for every AuthnRequest id without a colon and every relay
state, building the state string in the SSO handler and splitting it
on the first colon in the callback recovers exactly the pair; when the
relay state was empty the split yields no second part at all. -/
theorem state_split_roundtrip (id relay : String) (h : ':' ∉ id.data) :
    parseState (buildState id relay) = (id, relay) ∧
    (relay = "" → (goSplitN2Colon (buildState id relay)).2 = none) := by
  constructor
  · by_cases hr : relay = ""
    · subst hr
      unfold buildState
      rw [if_pos rfl]
      unfold parseState
      by_cases hid : id = ""
      · subst hid
        rw [if_pos rfl]
      · rw [if_neg hid, goSplitN2Colon_of_no_colon id h]
    · have hne : buildState id relay ≠ "" := by
        unfold buildState
        rw [if_neg hr]
        intro he
        have hd : (id ++ ":" ++ relay).data = [] := by rw [he]
        simp [String.data_append] at hd
      unfold parseState
      rw [if_neg hne, goSplitN2Colon_buildState id relay h hr]
  · intro hr
    subst hr
    unfold buildState
    rw [if_pos rfl, goSplitN2Colon_of_no_colon id h]

/-- Witness for C4 at a SAML-style id and a relay state that itself
contains a colon. -/
theorem state_split_roundtrip_witness :
    parseState (buildState "_a1b2c3" "app:page7") = ("_a1b2c3", "app:page7") ∧
    (("app:page7" : String) = "" →
      (goSplitN2Colon (buildState "_a1b2c3" "app:page7")).2 = none) :=
  state_split_roundtrip "_a1b2c3" "app:page7" (by decide)

/-- C5 counterexample: the callback takes separate clock readings for
CreateTime and for ExpireTime, so when the clock advances one
nanosecond between them the stored expire_time is create_time plus ten
minutes plus one nanosecond — not exactly ten minutes after
create_time as claimed. -/
theorem callback_expiry_not_exact :
    ¬ (∀ s, (handleOIDCCallback
        { code := "abc", exchangeResult := some { idTokenExtra := some "raw" },
          verifyOK := true,
          claimsResult := some { email := "alice@example.com", sub := "s1", name := "" },
          saveOK := true, state := "", now1 := 0, now2 := 0, now3 := 1 }
        []).saveAttempt = some s →
        s.expireTime = s.createTime + tenMinutesNs) := by
  intro hall
  have h := hall
    { id := "_0", createTime := 0, expireTime := 600000000001, index := "_0",
      nameID := "alice@example.com", userEmail := "alice@example.com",
      userCommonName := "alice@example.com", groups := [] } (by decide)
  rw [tenMinutesNs] at h
  exact absurd h (by decide)

/-- C5 as amended: on a callback whose token verifies with a non-empty
email and whose save succeeds, the handler persists a session whose
expire_time is ten minutes after the third clock reading (hence at
least create_time plus ten minutes under a monotone clock, and exactly
that only when the clock does not advance between the two readings),
whose index equals its id, whose name_id and user_email equal the
email claim, and it sets the HttpOnly SameSite=Lax cookie
saml_session=id with Path=/ and Max-Age=600, answering 302. -/
theorem callback_session_creation (env : CallbackEnv) (pending : PendingMap)
    (tok : GoToken) (raw : String) (cl : OIDCClaims)
    (h1 : env.code ≠ "") (h2 : env.exchangeResult = some tok)
    (h3 : tok.idTokenExtra = some raw) (h4 : env.verifyOK = true)
    (h5 : env.claimsResult = some cl) (h6 : cl.email ≠ "")
    (h7 : env.saveOK = true) :
    ∃ s, (handleOIDCCallback env pending).saveAttempt = some s ∧
      s.createTime = env.now2 ∧
      s.expireTime = env.now3 + tenMinutesNs ∧
      (env.now2 ≤ env.now3 → s.createTime + tenMinutesNs ≤ s.expireTime) ∧
      s.index = s.id ∧ s.nameID = cl.email ∧ s.userEmail = cl.email ∧
      (handleOIDCCallback env pending).cookie =
        some { name := "saml_session", value := s.id, path := "/", maxAge := 600,
               httpOnly := true, sameSite := SameSite.lax } ∧
      (handleOIDCCallback env pending).status = 302 := by
  refine ⟨{ id := "_" ++ toString env.now1, createTime := env.now2,
            expireTime := env.now3 + tenMinutesNs, index := "_" ++ toString env.now1,
            nameID := cl.email, userEmail := cl.email, userCommonName := cl.email,
            groups := [] }, ?_, rfl, rfl, ?_, rfl, rfl, rfl, ?_, ?_⟩
  · simp [handleOIDCCallback, h1, h2, h3, h4, h5, h6, h7]
  · intro hmono
    simpa using add_le_add_right hmono tenMinutesNs
  · simp [handleOIDCCallback, h1, h2, h3, h4, h5, h6, h7]
  · simp [handleOIDCCallback, h1, h2, h3, h4, h5, h6, h7]

/-- Witness for C5 (amended) at a concrete successful callback. -/
theorem callback_session_creation_witness :
    ∃ s, (handleOIDCCallback
        { code := "abc", exchangeResult := some { idTokenExtra := some "raw" },
          verifyOK := true,
          claimsResult := some { email := "alice@example.com", sub := "s1", name := "" },
          saveOK := true, state := "_id1", now1 := 7, now2 := 7, now3 := 7 }
        []).saveAttempt = some s ∧
      s.createTime = 7 ∧
      s.expireTime = 7 + tenMinutesNs ∧
      ((7 : Int) ≤ 7 → s.createTime + tenMinutesNs ≤ s.expireTime) ∧
      s.index = s.id ∧ s.nameID = "alice@example.com" ∧
      s.userEmail = "alice@example.com" ∧
      (handleOIDCCallback
        { code := "abc", exchangeResult := some { idTokenExtra := some "raw" },
          verifyOK := true,
          claimsResult := some { email := "alice@example.com", sub := "s1", name := "" },
          saveOK := true, state := "_id1", now1 := 7, now2 := 7, now3 := 7 }
        []).cookie =
        some { name := "saml_session", value := s.id, path := "/", maxAge := 600,
               httpOnly := true, sameSite := SameSite.lax } ∧
      (handleOIDCCallback
        { code := "abc", exchangeResult := some { idTokenExtra := some "raw" },
          verifyOK := true,
          claimsResult := some { email := "alice@example.com", sub := "s1", name := "" },
          saveOK := true, state := "_id1", now1 := 7, now2 := 7, now3 := 7 }
        []).status = 302 :=
  callback_session_creation _ [] { idTokenExtra := some "raw" } "raw"
    { email := "alice@example.com", sub := "s1", name := "" }
    (by decide) rfl rfl rfl rfl (by decide) rfl

/-- C10: every session the callback ever passes to the store has
user_common_name equal to user_email and an empty groups sequence, and
the handler's outcome never depends on the display name the OP put in
the token. -/
theorem session_common_name_and_groups :
    (∀ env pending s, (handleOIDCCallback env pending).saveAttempt = some s →
      s.userCommonName = s.userEmail ∧ s.groups = ([] : List String)) ∧
    (∀ env pending n,
      handleOIDCCallback (withDisplayName env n) pending = handleOIDCCallback env pending) := by
  constructor
  · intro env pending s hs
    simp only [handleOIDCCallback] at hs
    repeat' split at hs
    all_goals
      first
        | exact Option.noConfusion hs
        | (have hrec := Option.some.inj hs
           subst hrec
           exact ⟨rfl, rfl⟩)
  · intro env pending n
    cases env with
    | mk code exch v cl save st n1 n2 n3 =>
        cases cl with
        | none => rfl
        | some c =>
            cases c with
            | mk em sb nm => rfl

/-- Witness for C10 at a concrete successful callback. -/
theorem session_common_name_and_groups_witness :
    ({ id := "_3", createTime := 3, expireTime := 3 + tenMinutesNs, index := "_3",
       nameID := "bob@example.com", userEmail := "bob@example.com",
       userCommonName := "bob@example.com",
       groups := [] } : SAMLSession).userCommonName =
      ({ id := "_3", createTime := 3, expireTime := 3 + tenMinutesNs, index := "_3",
         nameID := "bob@example.com", userEmail := "bob@example.com",
         userCommonName := "bob@example.com",
         groups := [] } : SAMLSession).userEmail ∧
    ({ id := "_3", createTime := 3, expireTime := 3 + tenMinutesNs, index := "_3",
       nameID := "bob@example.com", userEmail := "bob@example.com",
       userCommonName := "bob@example.com",
       groups := [] } : SAMLSession).groups = ([] : List String) :=
  session_common_name_and_groups.1
    { code := "c7", exchangeResult := some { idTokenExtra := some "raw" },
      verifyOK := true,
      claimsResult := some { email := "bob@example.com", sub := "s2", name := "Bob" },
      saveOK := true, state := "", now1 := 3, now2 := 3, now3 := 3 }
    [] _ (by decide)

theorem map_replace_of_fresh (tbl : List SPRow) (e u2 b2 : String)
    (hfresh : ∀ r ∈ tbl, r.entityID ≠ e) :
    tbl.map (fun r => if r.entityID = e then { r with acsURL := u2, acsBinding := b2 }
      else r) = tbl := by
  induction tbl with
  | nil => rfl
  | cons r rs ih =>
      rw [List.map_cons, if_neg (hfresh r (List.mem_cons_self r rs)),
        ih (fun x hx => hfresh x (List.mem_cons_of_mem _ hx))]

/-- C8: upsert followed by get on the service-provider registry
returns the record with byte-equal entity id, ACS URL and binding; a
second upsert of the same entity id leaves exactly one row with that
key, carrying the most recent ACS fields and the created_at of the
first insertion. -/
theorem sp_registry_roundtrip (tbl : List SPRow) (t1 t2 : Int) (e u b u2 b2 : String)
    (hfresh : ∀ r ∈ tbl, r.entityID ≠ e) :
    getServiceProvider (saveServiceProvider t1 tbl e u b) e =
      some { entityID := e, acsBinding := b, acsLocation := u, acsIndex := 1 } ∧
    getServiceProvider (saveServiceProvider t2 (saveServiceProvider t1 tbl e u b) e u2 b2) e =
      some { entityID := e, acsBinding := b2, acsLocation := u2, acsIndex := 1 } ∧
    (saveServiceProvider t2 (saveServiceProvider t1 tbl e u b) e u2 b2).filter
        (fun r => r.entityID = e) =
      [{ entityID := e, acsURL := u2, acsBinding := b2, createdAt := t1 }] := by
  have hanyfalse : tbl.any (fun r => r.entityID = e) = false := by
    rw [List.any_eq_false]
    intro x hx
    simpa using hfresh x hx
  have h1 : saveServiceProvider t1 tbl e u b =
      tbl ++ [{ entityID := e, acsURL := u, acsBinding := b, createdAt := t1 }] := by
    unfold saveServiceProvider
    rw [if_neg (by simp [hanyfalse])]
  refine ⟨getServiceProvider_saveServiceProvider t1 tbl e u b,
    getServiceProvider_saveServiceProvider t2 _ e u2 b2, ?_⟩
  rw [h1]
  unfold saveServiceProvider
  rw [if_pos (by simp)]
  rw [List.map_append, map_replace_of_fresh tbl e u2 b2 hfresh]
  have h2 : [({ entityID := e, acsURL := u, acsBinding := b, createdAt := t1 } : SPRow)].map
      (fun r => if r.entityID = e then { r with acsURL := u2, acsBinding := b2 } else r) =
      [{ entityID := e, acsURL := u2, acsBinding := b2, createdAt := t1 }] := by
    simp
  rw [h2, List.filter_append]
  have h3 : tbl.filter (fun r => r.entityID = e) = [] := by
    rw [List.filter_eq_nil_iff]
    intro x hx
    simpa using hfresh x hx
  rw [h3]
  simp

/-- Witness for C8 at a one-row table fresh for the inserted entity. -/
theorem sp_registry_roundtrip_witness :
    getServiceProvider
        (saveServiceProvider 11
          [{ entityID := "https://other.example/meta", acsURL := "https://other.example/acs",
             acsBinding := "urn:oasis:names:tc:SAML:2.0:bindings:HTTP-POST", createdAt := 3 }]
          "https://sp.example/meta" "https://sp.example/acs"
          "urn:oasis:names:tc:SAML:2.0:bindings:HTTP-POST")
        "https://sp.example/meta" =
      some { entityID := "https://sp.example/meta",
             acsBinding := "urn:oasis:names:tc:SAML:2.0:bindings:HTTP-POST",
             acsLocation := "https://sp.example/acs", acsIndex := 1 } ∧
    getServiceProvider
        (saveServiceProvider 12
          (saveServiceProvider 11
            [{ entityID := "https://other.example/meta", acsURL := "https://other.example/acs",
               acsBinding := "urn:oasis:names:tc:SAML:2.0:bindings:HTTP-POST", createdAt := 3 }]
            "https://sp.example/meta" "https://sp.example/acs"
            "urn:oasis:names:tc:SAML:2.0:bindings:HTTP-POST")
          "https://sp.example/meta" "https://sp.example/acs2"
          "urn:oasis:names:tc:SAML:2.0:bindings:HTTP-Redirect")
        "https://sp.example/meta" =
      some { entityID := "https://sp.example/meta",
             acsBinding := "urn:oasis:names:tc:SAML:2.0:bindings:HTTP-Redirect",
             acsLocation := "https://sp.example/acs2", acsIndex := 1 } ∧
    (saveServiceProvider 12
        (saveServiceProvider 11
          [{ entityID := "https://other.example/meta", acsURL := "https://other.example/acs",
             acsBinding := "urn:oasis:names:tc:SAML:2.0:bindings:HTTP-POST", createdAt := 3 }]
          "https://sp.example/meta" "https://sp.example/acs"
          "urn:oasis:names:tc:SAML:2.0:bindings:HTTP-POST")
        "https://sp.example/meta" "https://sp.example/acs2"
        "urn:oasis:names:tc:SAML:2.0:bindings:HTTP-Redirect").filter
        (fun r => r.entityID = "https://sp.example/meta") =
      [{ entityID := "https://sp.example/meta", acsURL := "https://sp.example/acs2",
         acsBinding := "urn:oasis:names:tc:SAML:2.0:bindings:HTTP-Redirect",
         createdAt := 11 }] :=
  sp_registry_roundtrip _ 11 12 "https://sp.example/meta" "https://sp.example/acs"
    "urn:oasis:names:tc:SAML:2.0:bindings:HTTP-POST" "https://sp.example/acs2"
    "urn:oasis:names:tc:SAML:2.0:bindings:HTTP-Redirect"
    (by intro r hr; rcases List.mem_singleton.mp hr with rfl; decide)

/-- C9: a pending entry can disappear in one handler step only through
an OIDC callback whose state carries exactly that request id, with a
successful save and a fully successful (302) outcome; and along any
trace containing no callback for that key, a stored entry stays in the
table for the whole trace — there is no TTL-based or size-based
eviction. -/
theorem pending_removed_only_by_successful_callback :
    (∀ pending k ev, mapGet pending k ≠ none → mapGet (pendingStep pending ev) k = none →
      ∃ cenv, ev = ServerEvent.callback cenv ∧ (parseState cenv.state).1 = k ∧
        cenv.saveOK = true ∧ (handleOIDCCallback cenv pending).status = 302) ∧
    (∀ pending k evs,
      (∀ cenv, ServerEvent.callback cenv ∈ evs → (parseState cenv.state).1 ≠ k) →
      mapGet pending k ≠ none → mapGet (pendingRun pending evs) k ≠ none) := by
  refine ⟨fun pending k ev => pendingStep_remove pending k ev, ?_⟩
  intro pending k evs
  induction evs generalizing pending with
  | nil =>
      intro _ h
      simpa [pendingRun] using h
  | cons ev rest ih =>
      intro hnc hpre
      have hstep : mapGet (pendingStep pending ev) k ≠ none := by
        intro hnone
        obtain ⟨cenv, hev, hk, _, _⟩ := pendingStep_remove pending k ev hpre hnone
        have hmem : ServerEvent.callback cenv ∈ ev :: rest := by
          rw [hev]
          exact List.mem_cons_self _ _
        exact hnc cenv hmem hk
      have hrest := ih (pendingStep pending ev)
        (fun cenv hm => hnc cenv (List.mem_cons_of_mem _ hm)) hstep
      simpa [pendingRun, List.foldl_cons] using hrest

/-- Witness for C9: a step that removes the key is the matching
successful callback, and a trace of one SSO event keeps the entry. -/
theorem pending_removed_witness :
    (∃ cenv, ServerEvent.callback
        { code := "abc", exchangeResult := some { idTokenExtra := some "raw" },
          verifyOK := true,
          claimsResult := some { email := "alice@example.com", sub := "s1", name := "" },
          saveOK := true, state := "_k1", now1 := 0, now2 := 0, now3 := 0 } =
        ServerEvent.callback cenv ∧
      (parseState cenv.state).1 = "_k1" ∧ cenv.saveOK = true ∧
      (handleOIDCCallback cenv
        [("_k1", { samlRequest := "cmVx", relayState := "" })]).status = 302) ∧
    mapGet (pendingRun [("_k1", { samlRequest := "cmVx", relayState := "" })]
      [ServerEvent.sso
        { cookieValue := none, storedSession := none, querySAMLRequest := "b64",
          formSAMLRequest := "", formParseOK := true, reqID := "_k2",
          relayState := "" }]) "_k1" ≠ none := by
  constructor
  · exact pending_removed_only_by_successful_callback.1
      [("_k1", { samlRequest := "cmVx", relayState := "" })] "_k1"
      (ServerEvent.callback
        { code := "abc", exchangeResult := some { idTokenExtra := some "raw" },
          verifyOK := true,
          claimsResult := some { email := "alice@example.com", sub := "s1", name := "" },
          saveOK := true, state := "_k1", now1 := 0, now2 := 0, now3 := 0 })
      (by decide) (by decide)
  · exact pending_removed_only_by_successful_callback.2
      [("_k1", { samlRequest := "cmVx", relayState := "" })] "_k1"
      [ServerEvent.sso
        { cookieValue := none, storedSession := none, querySAMLRequest := "b64",
          formSAMLRequest := "", formParseOK := true, reqID := "_k2",
          relayState := "" }]
      (by
        intro cenv hm
        rcases List.mem_singleton.mp hm with h
        exact ServerEvent.noConfusion h)
      (by decide)

theorem handleServiceProviderRegistration_binding_stage (req : RegRequest) (now : Int)
    (tbl : List SPRow) (saveOK : Bool)
    (h1 : req.entityID ≠ "") (h2 : req.acsURL ≠ "")
    (h3 : checkBridgeURL req.acsURL = true) (h4 : checkBridgeURL req.entityID = true) :
    handleServiceProviderRegistration "POST" req saveOK now tbl =
      (if req.acsBinding ≠ "" && req.acsBinding ≠ HTTPPostBinding &&
          req.acsBinding ≠ HTTPRedirectBinding then
        { status := 400, table := tbl }
      else if !saveOK then { status := 500, table := tbl }
      else { status := 201,
             table := saveServiceProvider now tbl req.entityID req.acsURL
               (if req.acsBinding = "" then HTTPPostBinding else req.acsBinding) }) := by
  unfold handleServiceProviderRegistration
  rw [if_neg (by decide), if_neg (by simp [h1, h2]), if_neg (by simp [h3]),
    if_neg (by simp [h4])]

/-- C6: with valid entity and ACS URLs, the Admin registration accepts
exactly the two SAML bindings; an empty acs_binding is replaced by
HTTP-POST; any other string answers 400 and writes no row. -/
theorem admin_binding_validation (req : RegRequest) (now : Int) (tbl : List SPRow)
    (h1 : req.entityID ≠ "") (h2 : req.acsURL ≠ "")
    (h3 : checkBridgeURL req.acsURL = true) (h4 : checkBridgeURL req.entityID = true) :
    (req.acsBinding = "" →
        (handleServiceProviderRegistration "POST" req true now tbl).status = 201 ∧
        getServiceProvider (handleServiceProviderRegistration "POST" req true now tbl).table
            req.entityID =
          some { entityID := req.entityID, acsBinding := HTTPPostBinding,
                 acsLocation := req.acsURL, acsIndex := 1 }) ∧
    ((req.acsBinding = HTTPPostBinding ∨ req.acsBinding = HTTPRedirectBinding) →
        (handleServiceProviderRegistration "POST" req true now tbl).status = 201 ∧
        getServiceProvider (handleServiceProviderRegistration "POST" req true now tbl).table
            req.entityID =
          some { entityID := req.entityID, acsBinding := req.acsBinding,
                 acsLocation := req.acsURL, acsIndex := 1 }) ∧
    (req.acsBinding ≠ "" → req.acsBinding ≠ HTTPPostBinding →
      req.acsBinding ≠ HTTPRedirectBinding →
      ∀ saveOK, (handleServiceProviderRegistration "POST" req saveOK now tbl).status = 400 ∧
        (handleServiceProviderRegistration "POST" req saveOK now tbl).table = tbl) := by
  refine ⟨?_, ?_, ?_⟩
  · intro hb
    rw [handleServiceProviderRegistration_binding_stage req now tbl true h1 h2 h3 h4]
    rw [if_neg (by simp [hb]), if_neg (by simp)]
    rw [if_pos hb]
    exact ⟨rfl, getServiceProvider_saveServiceProvider now tbl req.entityID req.acsURL _⟩
  · intro hb
    have hbne : ¬ (req.acsBinding = "") := by
      rcases hb with hb | hb <;> rw [hb] <;> decide
    rw [handleServiceProviderRegistration_binding_stage req now tbl true h1 h2 h3 h4]
    have hguard : (req.acsBinding ≠ "" && req.acsBinding ≠ HTTPPostBinding &&
        req.acsBinding ≠ HTTPRedirectBinding) = false := by
      rcases hb with hb | hb <;> simp [hb]
    rw [hguard]
    rw [if_neg (by simp), if_neg (by simp)]
    rw [if_neg hbne]
    exact ⟨rfl, getServiceProvider_saveServiceProvider now tbl req.entityID req.acsURL _⟩
  · intro hb1 hb2 hb3 saveOK
    rw [handleServiceProviderRegistration_binding_stage req now tbl saveOK h1 h2 h3 h4]
    rw [if_pos (by simp [hb1, hb2, hb3])]
    exact ⟨rfl, rfl⟩

/-- Witness for C6: registering with an empty binding defaults to
HTTP-POST, and a bogus binding is refused with 400 and no row. -/
theorem admin_binding_validation_witness :
    ((handleServiceProviderRegistration "POST"
        { entityID := "https://sp.example/meta", acsURL := "https://sp.example/acs",
          acsBinding := "" } true 0 []).status = 201 ∧
      getServiceProvider (handleServiceProviderRegistration "POST"
          { entityID := "https://sp.example/meta", acsURL := "https://sp.example/acs",
            acsBinding := "" } true 0 []).table "https://sp.example/meta" =
        some { entityID := "https://sp.example/meta", acsBinding := HTTPPostBinding,
               acsLocation := "https://sp.example/acs", acsIndex := 1 }) ∧
    ((handleServiceProviderRegistration "POST"
        { entityID := "https://sp.example/meta", acsURL := "https://sp.example/acs",
          acsBinding := "bogus" } false 0 []).status = 400 ∧
      (handleServiceProviderRegistration "POST"
        { entityID := "https://sp.example/meta", acsURL := "https://sp.example/acs",
          acsBinding := "bogus" } false 0 []).table = ([] : List SPRow)) :=
  ⟨(admin_binding_validation
      { entityID := "https://sp.example/meta", acsURL := "https://sp.example/acs",
        acsBinding := "" } 0 [] (by decide) (by decide) (by decide) (by decide)).1 rfl,
   (admin_binding_validation
      { entityID := "https://sp.example/meta", acsURL := "https://sp.example/acs",
        acsBinding := "bogus" } 0 [] (by decide) (by decide) (by decide)
      (by decide)).2.2 (by decide) (by decide) (by decide) false⟩

/-- C7: unless entity_id and acs_url are both non-empty and both parse
as URLs with non-empty scheme and host and scheme http or https, the
Admin registration answers 400 and writes no row; in particular ftp,
schemeless and hostless values fail the URL check. -/
theorem admin_url_validation (req : RegRequest) (now : Int) (tbl : List SPRow)
    (saveOK : Bool)
    (h : req.entityID = "" ∨ req.acsURL = "" ∨ checkBridgeURL req.acsURL = false ∨
      checkBridgeURL req.entityID = false) :
    ((handleServiceProviderRegistration "POST" req saveOK now tbl).status = 400 ∧
     (handleServiceProviderRegistration "POST" req saveOK now tbl).table = tbl) ∧
    checkBridgeURL "ftp://sp.example/acs" = false ∧
    checkBridgeURL "sp.example/acs" = false ∧
    checkBridgeURL "http:///acs" = false ∧
    checkBridgeURL "https://sp.example/acs" = true := by
  refine ⟨?_, by decide, by decide, by decide, by decide⟩
  unfold handleServiceProviderRegistration
  rw [if_neg (by decide)]
  by_cases e1 : req.entityID = ""
  · rw [if_pos (by simp [e1])]
    exact ⟨rfl, rfl⟩
  · by_cases e2 : req.acsURL = ""
    · rw [if_pos (by simp [e2])]
      exact ⟨rfl, rfl⟩
    · rw [if_neg (by simp [e1, e2])]
      by_cases c1 : checkBridgeURL req.acsURL = true
      · rw [if_neg (by simp [c1])]
        have c2 : checkBridgeURL req.entityID = false := by
          rcases h with h | h | h | h
          · exact absurd h e1
          · exact absurd h e2
          · rw [h] at c1
            exact absurd c1 (by decide)
          · exact h
        rw [if_pos (by simp [c2])]
        exact ⟨rfl, rfl⟩
      · rw [Bool.not_eq_true] at c1
        rw [if_pos (by simp [c1])]
        exact ⟨rfl, rfl⟩

/-- Witness for C7: an ftp ACS URL is refused with 400 and the table
is untouched. -/
theorem admin_url_validation_witness :
    ((handleServiceProviderRegistration "POST"
        { entityID := "https://sp.example/meta", acsURL := "ftp://sp.example/acs",
          acsBinding := "" } true 0 []).status = 400 ∧
     (handleServiceProviderRegistration "POST"
        { entityID := "https://sp.example/meta", acsURL := "ftp://sp.example/acs",
          acsBinding := "" } true 0 []).table = ([] : List SPRow)) ∧
    checkBridgeURL "ftp://sp.example/acs" = false ∧
    checkBridgeURL "sp.example/acs" = false ∧
    checkBridgeURL "http:///acs" = false ∧
    checkBridgeURL "https://sp.example/acs" = true :=
  admin_url_validation
    { entityID := "https://sp.example/meta", acsURL := "ftp://sp.example/acs",
      acsBinding := "" } 0 [] true (Or.inr (Or.inr (Or.inl (by decide))))

end SamlBridge
